import Mathlib

/-!
# Verification of the jupyter-js-docmanager core

A shallow embedding of the document-manager / file-handler core of the
`jupyter-js-docmanager` repository, together with theorems checking the
natural-language specification against the code.

The embedding follows `src/handler.ts` (`AbstractFileHandler` with the
concrete `FileHandler` hooks) and the `DocumentManager` source
(`documentmanager.ts`).  Conventions used throughout:

* JavaScript object identity of a widget is represented by a numeric id
  (`wid`); fresh widgets receive ids from a counter in the handler state.
* The attached property `AbstractFileHandler.modelProperty` (the per-widget
  model binding) is represented as a `model` field of the widget record:
  the property table stores exactly one model per widget object.
* A CSS `className` string is represented as its list of space-separated
  class tokens.  `className.indexOf(tok) === -1` corresponds to list
  non-membership, `className += ' ' + tok` to appending the token, and
  `className.replace(tok, '')` (which replaces the first occurrence) to
  `List.erase`.
* Asynchronous operations are embedded as explicit continuation steps:
  the synchronous part of an operation records the request it issued in an
  event trace, and a separate `...Done` / `resolve...` function is the
  continuation that the promise resolution runs.  A promise rejection runs
  no continuation (the code installs no rejection handler), so a failed
  operation is a no-op on the state.
* Signal emissions (`finished`, `activated`, `openRequested`) and calls
  into external collaborators (`ContentsService.get/save/rename`,
  `widget.dispose()`) are recorded in the event trace.
-/

namespace DocManager

/-! ## JavaScript string helpers -/

/-- JavaScript `s.split(c)`, on the character level: always returns at least
one (possibly empty) group. -/
def jsSplit : List Char → Char → List (List Char)
  | [], _ => [[]]
  | x :: rest, c =>
    match jsSplit rest c with
    | [] => [[]]
    | grp :: rest' => if x = c then [] :: grp :: rest' else (x :: grp) :: rest'

/-- `jsSplit` never returns the empty list of groups. -/
theorem jsSplit_ne_nil (s : List Char) (c : Char) : jsSplit s c ≠ [] := by
  cases s with
  | nil => simp [jsSplit]
  | cons x rest =>
    simp only [jsSplit]
    cases jsSplit rest c with
    | nil => simp
    | cons g r => by_cases h : x = c <;> simp [h]

/-- JavaScript `path.split('/').pop()`: the base name of a path. -/
def baseName (p : String) : String :=
  ⟨(jsSplit p.data '/').getLastD []⟩

/-- JavaScript `'.' + path.split('.').pop()`, the extension computation in
`DocumentManager.open`. -/
def extOf (path : String) : String :=
  ⟨'.' :: (jsSplit path.data '.').getLastD []⟩

/-- Index of the last `'/'` in a character list, if any
(JS `lastIndexOf('/')`, with `none` for `-1`). -/
def lastSlashPos : List Char → Option Nat
  | [] => none
  | c :: rest =>
    match lastSlashPos rest with
    | some i => some (i + 1)
    | none => if c = '/' then some 0 else none

/-- `AbstractFileHandler.getNewPath` (handler.ts):
`oldPath.slice(0, oldPath.lastIndexOf('/') + 1) + title`. -/
def getNewPath (oldPath title : String) : String :=
  let dirLen : Nat :=
    match lastSlashPos oldPath.data with
    | some i => i + 1
    | none => 0
  ⟨oldPath.data.take dirLen⟩ ++ title

theorem lastSlashPos_of_not_mem {l : List Char} (h : '/' ∉ l) :
    lastSlashPos l = none := by
  induction l with
  | nil => rfl
  | cons c rest ih =>
    simp only [List.mem_cons, not_or] at h
    simp [lastSlashPos, ih h.2, Ne.symm h.1]

theorem lastSlashPos_append_slash {d f : List Char} (hf : '/' ∉ f) :
    lastSlashPos (d ++ '/' :: f) = some d.length := by
  induction d with
  | nil => simp [lastSlashPos, lastSlashPos_of_not_mem hf]
  | cons x xs ih => simp [lastSlashPos, ih]

/-- The new path computed for a rename keeps the directory part (everything
up to and including the last slash) and replaces the file part by the new
title. -/
theorem getNewPath_dir_file {p : String} {d f : List Char}
    (hp : p.data = d ++ '/' :: f) (hf : '/' ∉ f) (t : String) :
    (getNewPath p t).data = d ++ '/' :: t.data := by
  have happ : ∀ a b : String, (a ++ b).data = a.data ++ b.data := by
    intro a b; cases a; cases b; rfl
  simp only [getNewPath, hp, lastSlashPos_append_slash hf, happ]
  have : (d ++ '/' :: f).take (d.length + 1) = d ++ ['/'] := by
    rw [show d.length + 1 = d.length + ['/'].length by simp,
        show d ++ '/' :: f = (d ++ ['/']) ++ f by simp]
    rw [← List.length_append d ['/']]
    exact List.take_left (d ++ ['/']) f
  simp [this]

/-! ## Data model of the handler (handler.ts) -/

/-- `IContentsModel` (jupyter-js-services): the snapshot exchanged with the
contents service.  The `type`/`format` fields are constant strings in this
repository (`'file'`/`'text'`) and are omitted. -/
structure ContentsModel where
  path : String
  name : String
  content : String
  deriving DecidableEq, Repr

/-- The class name added to dirty documents (handler.ts `DIRTY_CLASS`). -/
def DIRTY_CLASS : String := "jp-mod-dirty"

/-- A phosphor widget as used by the handler: object identity is `wid`;
`titleText`, `titleClassName` (as class-token list) and `titleClosable`
are the `Title` fields the handler touches; `content` is the editor
document text (`editor.getDoc()` value); `isVisible` and `nodeTargets`
(the set of DOM event targets contained in `widget.node`) feed the focus
scan; `model` is the value of the attached `modelProperty`. -/
structure Widget where
  wid : Nat
  titleText : String
  titleClassName : List String
  titleClosable : Bool
  content : String
  isVisible : Bool
  nodeTargets : List Nat
  model : ContentsModel
  deriving DecidableEq, Repr

/-- An outstanding `getContents(model).then(...)` population started by
`open`: the closure captures the widget and the model passed to `open`. -/
structure PendingPopulate where
  wid : Nat
  model : ContentsModel
  deriving DecidableEq, Repr

/-- Observable actions of the handler: requests issued to the contents
service, signal emissions, and widget disposal. -/
inductive HEvent where
  | fetchRequested (path : String)
  | saveRequested (path : String) (contents : ContentsModel)
  | renameRequested (oldPath newPath : String)
  | finished (m : ContentsModel)
  | activated
  | disposed (wid : Nat)
  deriving DecidableEq, Repr

/-- The mutable state of one `AbstractFileHandler` (concrete `FileHandler`):
`_widgets`, `_activeWidget` (by id, `none` for `null`), a counter supplying
fresh widget ids, the outstanding population promises, and the event trace
(oldest first). -/
structure HandlerState where
  widgets : List Widget
  activeWidget : Option Nat
  nextId : Nat
  pending : List PendingPopulate
  events : List HEvent
  deriving DecidableEq, Repr

/-- Mutate the widget object with id `i` (in JS the closure mutates the
captured object; the registry sees the mutation in place). -/
def updateWidget (ws : List Widget) (i : Nat) (f : Widget → Widget) :
    List Widget :=
  ws.map (fun w => if w.wid == i then f w else w)

/-- Look up the widget object with id `i` in the registry. -/
def findWid (st : HandlerState) (i : Nat) : Option Widget :=
  st.widgets.find? (fun w => w.wid == i)

/-- Whether the dirty CSS marker is present on the widget title. -/
def isDirty (w : Widget) : Bool := w.titleClassName.contains DIRTY_CLASS

/-- The dirty flag of widget `i`, if the widget is registered. -/
def dirtyOf (st : HandlerState) (i : Nat) : Option Bool :=
  (findWid st i).map isDirty

/-! ## Handler operations (handler.ts) -/

/-- `AbstractFileHandler._findWidgetByModel`:
`arrays.find(this._widgets, widget => getModel(widget).path === model.path)`. -/
def findWidgetByModel (ws : List Widget) (m : ContentsModel) : Option Widget :=
  ws.find? (fun w => w.model.path == m.path)

/-- `AbstractFileHandler.open` with the concrete `FileHandler.createWidget`
hook.  If a widget for `model.path` exists it is returned unchanged;
otherwise a fresh widget is created (`title.text` is the base name of the
path, per `createWidget`), made closable, bound to the model
(`_setModel`), registered and message-filtered.  Either way
`getContents(model)` is requested (`manager.get(model.path, ...)`, recorded
as `fetchRequested model.path`) with the population continuation left
pending.  `freshWidget` is the widget built by `createWidget` (its
`title.text` is the base name of the path) as registered by `open`
(`title.closable = true`, model bound by `_setModel`). -/
def freshWidget (st : HandlerState) (m : ContentsModel) : Widget :=
  { wid := st.nextId
    titleText := baseName m.path
    titleClassName := []
    titleClosable := true
    content := ""
    isVisible := false
    nodeTargets := []
    model := m }

def fhOpen (st : HandlerState) (m : ContentsModel) : Widget × HandlerState :=
  match findWidgetByModel st.widgets m with
  | some widget =>
      (widget,
        { st with
          pending := st.pending ++ [⟨widget.wid, m⟩],
          events := st.events ++ [.fetchRequested m.path] })
  | none =>
      let widget := freshWidget st m
      (widget,
        { st with
          widgets := st.widgets ++ [widget],
          nextId := st.nextId + 1,
          pending := st.pending ++ [⟨widget.wid, m⟩],
          events := st.events ++ [.fetchRequested m.path] })

/-- `FileHandler.setState` on a widget: load the fetched text into the
editor (`editor.getDoc().setValue(model.content)`). -/
def populateFn (fetched : ContentsModel) (w : Widget) : Widget :=
  { w with content := fetched.content }

/-- Resolution of a pending population: the continuation
`contents => this.setState(widget, contents).then(() => finished.emit(model))`
of `open`.  `FileHandler.setState` loads the fetched text into the editor
(`setValue(model.content)`); the `finished` signal then carries the model
the `open` call received.  A response can only arrive for an outstanding
request, which it consumes. -/
def resolvePopulate (st : HandlerState) (p : PendingPopulate)
    (fetched : ContentsModel) : HandlerState :=
  if st.pending.contains p then
    { st with
      pending := st.pending.erase p,
      widgets := updateWidget st.widgets p.wid (populateFn fetched),
      events := st.events ++ [.finished p.model] }
  else st

/-- Body of the CodeMirror `'change'` listener installed by
`FileHandler.setState`:
`if (className.indexOf(DIRTY_CLASS) === -1) className += ' ' + DIRTY_CLASS`. -/
def editFn (w : Widget) : Widget :=
  if w.titleClassName.contains DIRTY_CLASS then w
  else { w with titleClassName := w.titleClassName ++ [DIRTY_CLASS] }

/-- An edit notification from the editor of widget `i`. -/
def editNotify (st : HandlerState) (i : Nat) : HandlerState :=
  { st with widgets := updateWidget st.widgets i editFn }

/-- `AbstractFileHandler._resolveWidget`:
`widget = widget || this._activeWidget`, then `undefined` unless the widget
is in `this._widgets`. -/
def resolveWidget (st : HandlerState) (arg : Option Nat) : Option Widget :=
  match arg with
  | some i => st.widgets.find? (fun w => w.wid == i)
  | none =>
    match st.activeWidget with
    | some i => st.widgets.find? (fun w => w.wid == i)
    | none => none

/-- `FileHandler.getState`: reassemble a contents model from the editor text
with a derived short name (`path.split('/').pop().split('.')[0]`). -/
def getState (w : Widget) : ContentsModel :=
  { path := w.model.path
    name := ⟨(jsSplit (baseName w.model.path).data '.').headD []⟩
    content := w.content }

/-- Synchronous part of `AbstractFileHandler.save`: resolve the widget (a
no-op returning `undefined` if unresolvable), extract the state via
`getState`, and request `manager.save(model.path, contents)`. -/
def fhSave (st : HandlerState) (arg : Option Nat) : HandlerState :=
  match resolveWidget st arg with
  | none => st
  | some w =>
      { st with events := st.events ++ [.saveRequested w.model.path (getState w)] }

/-- Success continuation of `save`:
`widget.title.className = widget.title.className.replace(DIRTY_CLASS, '')`. -/
def saveFn (w : Widget) : Widget :=
  { w with titleClassName := w.titleClassName.erase DIRTY_CLASS }

def saveDone (st : HandlerState) (i : Nat) : HandlerState :=
  { st with widgets := updateWidget st.widgets i saveFn }

/-- Synchronous part of `AbstractFileHandler.revert`: resolve the widget and
re-request `getContents(model)` for its bound path. -/
def fhRevert (st : HandlerState) (arg : Option Nat) : HandlerState :=
  match resolveWidget st arg with
  | none => st
  | some w => { st with events := st.events ++ [.fetchRequested w.model.path] }

/-- Success continuation of `revert`: `setState(widget, contents)` (load the
fetched text) and then remove the dirty marker. -/
def revertFn (fetched : ContentsModel) (w : Widget) : Widget :=
  { w with
    content := fetched.content,
    titleClassName := w.titleClassName.erase DIRTY_CLASS }

def revertDone (st : HandlerState) (i : Nat) (fetched : ContentsModel) :
    HandlerState :=
  { st with widgets := updateWidget st.widgets i (revertFn fetched) }

/-- `AbstractFileHandler.close`.  Note the source's unresolved branch is
`return;` — the call evaluates to `undefined`, represented as `none`
(whereas `true` is `some true`).  On success: `widget.dispose()` (recorded
in the trace), `splice` out the widget at its `indexOf` position, and clear
`_activeWidget` if it referenced the closed widget. -/
def fhClose (st : HandlerState) (arg : Option Nat) :
    Option Bool × HandlerState :=
  match resolveWidget st arg with
  | none => (none, st)
  | some w =>
      let idx := st.widgets.findIdx (fun x => x.wid == w.wid)
      (some true,
        { st with
          widgets := st.widgets.eraseIdx idx,
          activeWidget :=
            if st.activeWidget = some w.wid then none else st.activeWidget,
          events := st.events ++ [.disposed w.wid] })

/-- `AbstractFileHandler.filterMessage`: intercept `'close-request'`
messages on a managed widget and route them through `close`. -/
def filterMessage (st : HandlerState) (handlerWid : Nat) (msgType : String) :
    Option Bool × HandlerState :=
  if msgType = "close-request" then fhClose st (some handlerWid)
  else (some false, st)

/-- The loop of `closeAll`: `for (let w of this._widgets) w.close()`.
A JS `for...of` over an array reads `arr[k]` for `k = 0, 1, ...` while
`k < arr.length` against the *live* array; `w.close()` synchronously sends
a `'close-request'` message which the installed message filter routes into
`this.close(w)`, splicing the array mid-iteration.  The fuel parameter
(instantiated with the initial length) only bounds the iteration count,
which strictly decreases since `k` grows and the length never does. -/
def closeAllLoop : Nat → HandlerState → Nat → HandlerState
  | 0, st, _ => st
  | fuel + 1, st, k =>
    if h : k < st.widgets.length then
      let w := st.widgets.get ⟨k, h⟩
      closeAllLoop fuel (filterMessage st w.wid "close-request").2 (k + 1)
    else st

/-- `AbstractFileHandler.closeAll`: run the loop, then
`this._activeWidget = null`. -/
def fhCloseAll (st : HandlerState) : HandlerState :=
  { closeAllLoop st.widgets.length st 0 with activeWidget := none }

/-- `AbstractFileHandler.onTitleChanged`, with the widget owning the changed
title identified by `i` (the source locates it by title object identity).
For a `'text'` change it requests
`manager.rename(model.path, getNewPath(model.path, args.newValue))`. -/
def onTitleChanged (st : HandlerState) (i : Nat) (argsName newValue : String) :
    HandlerState :=
  match st.widgets.find? (fun w => w.wid == i) with
  | none => st
  | some widget =>
      if argsName = "text" then
        { st with
          events := st.events ++
            [.renameRequested widget.model.path
              (getNewPath widget.model.path newValue)] }
      else st

/-- Success continuation of the rename:
`contents => this._setModel(widget, contents)` — rebind the widget's model
to the model returned by the service. -/
def rebindFn (contents : ContentsModel) (w : Widget) : Widget :=
  { w with model := contents }

def renameDone (st : HandlerState) (i : Nat) (contents : ContentsModel) :
    HandlerState :=
  { st with widgets := updateWidget st.widgets i (rebindFn contents) }

/-- `AbstractFileHandler._onFocus`: scan the registry for the first visible
widget whose node contains the event target; if found make it active, and
emit `activated` iff the previous active widget was `null`. -/
def onFocus (st : HandlerState) (target : Nat) : HandlerState :=
  let prev := st.activeWidget
  match st.widgets.find? (fun w => w.isVisible && w.nodeTargets.contains target) with
  | some widget =>
      let st1 := { st with activeWidget := some widget.wid }
      if prev.isNone then { st1 with events := st1.events ++ [.activated] }
      else st1
  | none => st

/-- `AbstractFileHandler.deactivate`: `this._activeWidget = null`. -/
def fhDeactivate (st : HandlerState) : HandlerState :=
  { st with activeWidget := none }

/-! ## The labeled transition system over handler operations

Every operation of the handler, including the asynchronous continuations,
becomes one label of a step function; promise rejections (`saveFail`, `revertFail`) run no
continuation and leave the state unchanged. -/

/-- One externally triggerable handler action. -/
inductive HLabel where
  | lopen (m : ContentsModel)
  | resolvePop (p : PendingPopulate) (fetched : ContentsModel)
  | edit (i : Nat)
  | lsave (arg : Option Nat)
  | saveOk (i : Nat)
  | saveFail (i : Nat)
  | lrevert (arg : Option Nat)
  | revertOk (i : Nat) (fetched : ContentsModel)
  | revertFail (i : Nat)
  | lclose (arg : Option Nat)
  | lcloseAll
  | focusEvent (target : Nat)
  | titleChange (i : Nat) (argsName newValue : String)
  | renameOk (i : Nat) (contents : ContentsModel)
  | deactivate
  deriving DecidableEq, Repr

/-- The step function of the handler: dispatch a label to the operation it
names. -/
def step (st : HandlerState) : HLabel → HandlerState
  | .lopen m => (fhOpen st m).2
  | .resolvePop p fetched => resolvePopulate st p fetched
  | .edit i => editNotify st i
  | .lsave arg => fhSave st arg
  | .saveOk i => saveDone st i
  | .saveFail _ => st
  | .lrevert arg => fhRevert st arg
  | .revertOk i fetched => revertDone st i fetched
  | .revertFail _ => st
  | .lclose arg => (fhClose st arg).2
  | .lcloseAll => fhCloseAll st
  | .focusEvent t => onFocus st t
  | .titleChange i n v => onTitleChanged st i n v
  | .renameOk i c => renameDone st i c
  | .deactivate => fhDeactivate st

/-! ## Data model of the document manager (documentmanager.ts) -/

/-- A registered handler as the manager sees it: an identity and the
declared `fileExtensions`. -/
structure DMHandler where
  hid : Nat
  fileExtensions : List String
  deriving DecidableEq, Repr

/-- `DocumentManager` state: the ordered registration list and the default
handler (`null` for none). -/
structure DocManagerState where
  handlers : List DMHandler
  defaultHandler : Option DMHandler
  deriving DecidableEq, Repr

/-- Observable actions of the manager. -/
inductive DMEvent where
  | openRequested (h : DMHandler)
  deriving DecidableEq, Repr

/-- Where a `DocumentManager.open` call ends up: `noHandlers` for the
`return;` (value `undefined`) taken when no handlers are registered,
`opened h` for a dispatch to handler `h` (via `_open`, which emits the
`openRequested` signal), `errorCouldNotOpen` for the thrown
`` Error(`Could not open file '${path}'`) ``. -/
inductive OpenOutcome where
  | noHandlers
  | opened (h : DMHandler)
  | errorCouldNotOpen (path : String)
  deriving DecidableEq, Repr

/-- `DocumentManager.register`: append to the ordered handler list. -/
def dmRegister (dm : DocManagerState) (h : DMHandler) : DocManagerState :=
  { dm with handlers := dm.handlers ++ [h] }

/-- `DocumentManager.registerDefault`: throw if a default is already set,
else register and designate.  The throw happens before any mutation. -/
def dmRegisterDefault (dm : DocManagerState) (h : DMHandler) :
    Except String DocManagerState :=
  match dm.defaultHandler with
  | some _ => .error "Default handler already registered"
  | none =>
      .ok { dm with
            handlers := dm.handlers ++ [h],
            defaultHandler := some h }

/-- The handlers whose declared extensions contain the extension of `path`
(the local `handlers` array built by `DocumentManager.open`), in
registration order. -/
def dmMatches (dm : DocManagerState) (path : String) : List DMHandler :=
  dm.handlers.filter (fun h => h.fileExtensions.contains (extOf path))

/-- `DocumentManager.open`, dispatch level.  Returns the outcome, the
events the manager emitted, and the (unchanged) manager state; the
widget-side effects of `_open` (the dispatched handler's `open` and its
active-widget update) belong to the handler model. -/
def dmOpen (dm : DocManagerState) (path : String) :
    OpenOutcome × List DMEvent × DocManagerState :=
  if dm.handlers.length = 0 then (.noHandlers, [], dm)
  else
    match dmMatches dm path with
    | [h] => (.opened h, [.openRequested h], dm)
    | [] =>
        match dm.defaultHandler with
        | some d => (.opened d, [.openRequested d], dm)
        | none => (.errorCouldNotOpen path, [], dm)
    | h :: _ :: _ => (.opened h, [.openRequested h], dm)

/-! ## Helper lemmas about widget lookup and update -/

theorem find?_updateWidget (ws : List Widget) (i j : Nat) (f : Widget → Widget)
    (hf : ∀ w, (f w).wid = w.wid) :
    (updateWidget ws i f).find? (fun w => w.wid == j)
      = (ws.find? (fun w => w.wid == j)).map
          (fun w => if w.wid == i then f w else w) := by
  unfold updateWidget
  rw [List.find?_map]
  have hcomp : ((fun w => w.wid == j) ∘ fun w => if w.wid == i then f w else w)
      = (fun w : Widget => w.wid == j) := by
    funext w
    by_cases h : (w.wid == i) = true <;> simp [Function.comp, h, hf]
  rw [hcomp]

/-- If widget ids are distinct, `find?` by id returns exactly the member
with that id. -/
theorem find?_wid_eq_some_iff {ws : List Widget} {i : Nat} {w : Widget}
    (hnd : (ws.map Widget.wid).Nodup) :
    ws.find? (fun x => x.wid == i) = some w ↔ w ∈ ws ∧ w.wid = i := by
  constructor
  · intro h
    exact ⟨List.mem_of_find?_eq_some h, by simpa using List.find?_some h⟩
  · rintro ⟨hm, hi⟩
    have hsome : (ws.find? (fun x => x.wid == i)).isSome := by
      rw [List.find?_isSome]; exact ⟨w, hm, by simp [hi]⟩
    obtain ⟨u, hu⟩ := Option.isSome_iff_exists.mp hsome
    have hum := List.mem_of_find?_eq_some hu
    have hui : u.wid = i := by simpa using List.find?_some hu
    have huw : u = w :=
      List.inj_on_of_nodup_map hnd hum hm (by rw [hui, hi])
    rw [hu, huw]

/-- States whose registries shrink (close, closeAll) cannot change the
dirty flag of a surviving widget. -/
theorem dirtyOf_eq_of_subset {st st' : HandlerState} {i : Nat} {d d' : Bool}
    (hnd : (st.widgets.map Widget.wid).Nodup)
    (hsub : st'.widgets ⊆ st.widgets)
    (h : dirtyOf st i = some d) (h' : dirtyOf st' i = some d') : d = d' := by
  simp only [dirtyOf, findWid, Option.map_eq_some'] at h h'
  obtain ⟨w, hw, hwd⟩ := h
  obtain ⟨w', hw', hwd'⟩ := h'
  have hmem : w ∈ st.widgets := List.mem_of_find?_eq_some hw
  have hmem' : w' ∈ st.widgets := hsub (List.mem_of_find?_eq_some hw')
  have hwi : w.wid = i := by simpa using List.find?_some hw
  have hwi' : w'.wid = i := by simpa using List.find?_some hw'
  have : w = w' := List.inj_on_of_nodup_map hnd hmem hmem' (by rw [hwi, hwi'])
  rw [← hwd, ← hwd', this]

/-- A widget mutation that preserves the id and the dirty marker preserves
`dirtyOf` at every id. -/
theorem dirtyOf_update_of_isDirty_eq (st : HandlerState) (i : Nat)
    (f : Widget → Widget) (hf : ∀ w, (f w).wid = w.wid)
    (hd : ∀ w, isDirty (f w) = isDirty w) (j : Nat) :
    dirtyOf { st with widgets := updateWidget st.widgets i f } j
      = dirtyOf st j := by
  simp only [dirtyOf, findWid, find?_updateWidget st.widgets i j f hf]
  cases h : st.widgets.find? (fun w => w.wid == j) with
  | none => rfl
  | some w =>
    by_cases hw : w.wid = i <;> simp [hw, hd]

/-- Effect of a targeted widget mutation on the target's own dirty flag. -/
theorem dirtyOf_update_self {st : HandlerState} {i : Nat} {w : Widget}
    (f : Widget → Widget) (hf : ∀ w, (f w).wid = w.wid)
    (hw : findWid st i = some w) :
    dirtyOf { st with widgets := updateWidget st.widgets i f } i
      = some (isDirty (f w)) := by
  have hwi : w.wid = i := by
    have := List.find?_some (by simpa [findWid] using hw)
    simpa using this
  simp only [dirtyOf, findWid, find?_updateWidget st.widgets i i f hf]
  simp only [findWid] at hw
  simp [hw, hwi]

/-- A targeted widget mutation leaves other widgets' dirty flags alone. -/
theorem dirtyOf_update_other (st : HandlerState) (i : Nat)
    (f : Widget → Widget) (hf : ∀ w, (f w).wid = w.wid) (j : Nat)
    (hij : j ≠ i) :
    dirtyOf { st with widgets := updateWidget st.widgets i f } j
      = dirtyOf st j := by
  simp only [dirtyOf, findWid, find?_updateWidget st.widgets i j f hf]
  cases h : st.widgets.find? (fun w => w.wid == j) with
  | none => rfl
  | some w =>
    have hwj : w.wid = j := by simpa using List.find?_some h
    have hne : w.wid ≠ i := by rw [hwj]; exact hij
    simp [hne]

theorem fhClose_widgets_sublist (st : HandlerState) (arg : Option Nat) :
    List.Sublist (fhClose st arg).2.widgets st.widgets := by
  unfold fhClose
  cases resolveWidget st arg with
  | none => simp
  | some w =>
    simpa using
      List.eraseIdx_sublist st.widgets (st.widgets.findIdx (fun x => x.wid == w.wid))

theorem closeAllLoop_widgets_sublist (fuel : Nat) :
    ∀ (st : HandlerState) (k : Nat),
      List.Sublist (closeAllLoop fuel st k).widgets st.widgets := by
  induction fuel with
  | zero => intro st k; simp [closeAllLoop]
  | succ n ih =>
    intro st k
    simp only [closeAllLoop]
    split
    · exact (ih _ _).trans (by
        simpa [filterMessage] using
          fhClose_widgets_sublist st (some (st.widgets.get ⟨k, by assumption⟩).wid))
    · exact List.Sublist.refl _

theorem fhCloseAll_widgets_sublist (st : HandlerState) :
    List.Sublist (fhCloseAll st).widgets st.widgets := by
  simpa [fhCloseAll] using closeAllLoop_widgets_sublist st.widgets.length st 0

/-! ## C1: `open` is idempotent by path -/

theorem findWidgetByModel_append_fresh (st : HandlerState) (m : ContentsModel)
    (hw : findWidgetByModel st.widgets m = none) :
    findWidgetByModel (st.widgets ++ [freshWidget st m]) m
      = some (freshWidget st m) := by
  unfold findWidgetByModel at hw ⊢
  rw [List.find?_append, hw]
  simp [freshWidget]

/-- **C1**: calling `AbstractFileHandler.open(m)` when a widget bound to
`m.path` is already registered returns that widget object unchanged and
neither creates nor registers a new widget (the registry and the fresh-id
counter are untouched); in particular two consecutive `open` calls with the
same path return the same widget both times. -/
theorem c1_open_idempotent_by_path (st : HandlerState) (m : ContentsModel) :
    (∀ w, findWidgetByModel st.widgets m = some w →
        (fhOpen st m).1 = w
      ∧ (fhOpen st m).2.widgets = st.widgets
      ∧ (fhOpen st m).2.nextId = st.nextId)
  ∧ (fhOpen (fhOpen st m).2 m).1 = (fhOpen st m).1 := by
  constructor
  · intro w hw
    simp [fhOpen, hw]
  · cases hw : findWidgetByModel st.widgets m with
    | some w => simp [fhOpen, hw]
    | none => simp [fhOpen, hw, findWidgetByModel_append_fresh st m hw]

/-- Concrete handler state for the C1 witness: one widget bound to
`"a.txt"`. -/
def c1Widget : Widget :=
  { wid := 0, titleText := "a.txt", titleClassName := [], titleClosable := true,
    content := "", isVisible := false, nodeTargets := [],
    model := ⟨"a.txt", "a", "x"⟩ }

def c1State : HandlerState :=
  { widgets := [c1Widget], activeWidget := none, nextId := 1,
    pending := [], events := [] }

theorem c1_open_idempotent_by_path_witness :
    (fhOpen c1State ⟨"a.txt", "a", "x"⟩).1 = c1Widget
      ∧ (fhOpen c1State ⟨"a.txt", "a", "x"⟩).2.widgets = c1State.widgets := by
  have h := (c1_open_idempotent_by_path c1State ⟨"a.txt", "a", "x"⟩).1 c1Widget
    (by decide)
  exact ⟨h.1, h.2.1⟩

/-! ## C2 / C10: dispatch in `DocumentManager.open` -/

/-- A `DocumentManager` with no registered handlers, the input on which the
dispatch description of the spec fails. -/
def c2EmptyManager : DocManagerState := { handlers := [], defaultHandler := none }

/-- **C2, counterexample to the claim as stated**: with no handlers
registered at all, `open("a.md")` has zero matching handlers and no default
handler, yet it does not fail with the "could not open" error — it takes
the early `return;` and produces no widget. -/
theorem c2_counterexample :
    dmMatches c2EmptyManager "a.md" = []
  ∧ c2EmptyManager.defaultHandler = none
  ∧ (dmOpen c2EmptyManager "a.md").1 ≠ OpenOutcome.errorCouldNotOpen "a.md"
  ∧ (dmOpen c2EmptyManager "a.md").1 = OpenOutcome.noHandlers := by
  refine ⟨rfl, rfl, ?_, rfl⟩
  intro hc
  simp [dmOpen, c2EmptyManager] at hc

/-- **C2 (amended)**: provided at least one handler is registered,
`DocumentManager.open(model)` computes the extension from the path suffix
and dispatches as the claim states: a unique matching handler receives the
call; with no match the default handler receives it if registered, else
the call fails with an error naming the path; with several matches the
first match in registration order receives it. -/
theorem c2_dispatch_by_extension (dm : DocManagerState) (path : String)
    (hne : dm.handlers ≠ []) :
    (∀ h, dmMatches dm path = [h] → (dmOpen dm path).1 = .opened h)
  ∧ (∀ d, dmMatches dm path = [] → dm.defaultHandler = some d →
      (dmOpen dm path).1 = .opened d)
  ∧ (dmMatches dm path = [] → dm.defaultHandler = none →
      (dmOpen dm path).1 = .errorCouldNotOpen path)
  ∧ (∀ h t, dmMatches dm path = h :: t → (dmOpen dm path).1 = .opened h) := by
  have hlen : ¬ dm.handlers.length = 0 := by
    simpa [List.length_eq_zero] using hne
  refine ⟨?_, ?_, ?_, ?_⟩
  · intro h hm; simp [dmOpen, hlen, hm]
  · intro d hm hd; simp [dmOpen, hlen, hm, hd]
  · intro hm hd; simp [dmOpen, hlen, hm, hd]
  · intro h t hm
    cases t with
    | nil => simp [dmOpen, hlen, hm]
    | cons x t' => simp [dmOpen, hlen, hm]

/-- Handlers for the C2 witness: `.md` is declared by handler 1 only. -/
def c2MdHandler : DMHandler := { hid := 1, fileExtensions := [".md"] }

def c2TxtHandler : DMHandler := { hid := 2, fileExtensions := [".txt"] }

def c2Manager : DocManagerState :=
  { handlers := [c2TxtHandler, c2MdHandler], defaultHandler := none }

theorem c2_dispatch_by_extension_witness :
    (dmOpen c2Manager "a.md").1 = .opened c2MdHandler
  ∧ (dmOpen c2Manager "a.zip").1 = .errorCouldNotOpen "a.zip" := by
  constructor
  · exact (c2_dispatch_by_extension c2Manager "a.md" (by decide)).1
      c2MdHandler (by decide)
  · exact (c2_dispatch_by_extension c2Manager "a.zip" (by decide)).2.2.1
      (by decide) rfl

/-- **C10**: with no handlers registered, `DocumentManager.open` returns
immediately with no widget (`undefined`) for every model: no "could not
open" error is thrown, no `openRequested` signal is emitted, and the
manager state is unchanged — even though no default handler exists. -/
theorem c10_open_without_handlers (dm : DocManagerState) (path : String)
    (h : dm.handlers = []) :
    dmOpen dm path = (.noHandlers, [], dm)
  ∧ OpenOutcome.noHandlers ≠ OpenOutcome.errorCouldNotOpen path := by
  refine ⟨by simp [dmOpen, h], by intro hc; cases hc⟩

theorem c10_open_without_handlers_witness :
    dmOpen ⟨[], none⟩ "a.md" = (.noHandlers, [], ⟨[], none⟩) :=
  (c10_open_without_handlers ⟨[], none⟩ "a.md" rfl).1

/-! ## C7: `registerDefault` succeeds at most once -/

/-- **C7**: the first `registerDefault` on a manager with no default
registers the handler and designates it the default; any call when a
default is already set fails with the "already registered" error (the
throw precedes every mutation in the source, so the registered state is
untouched); in particular a second `registerDefault` in sequence always
fails. -/
theorem c7_register_default_at_most_once (dm : DocManagerState) (h : DMHandler) :
    (dm.defaultHandler = none →
       dmRegisterDefault dm h
         = .ok { dm with handlers := dm.handlers ++ [h], defaultHandler := some h })
  ∧ (∀ d, dm.defaultHandler = some d →
       dmRegisterDefault dm h = .error "Default handler already registered")
  ∧ (∀ dm₁ h₂, dmRegisterDefault dm h = .ok dm₁ →
       dmRegisterDefault dm₁ h₂ = .error "Default handler already registered") := by
  refine ⟨?_, ?_, ?_⟩
  · intro hd; simp [dmRegisterDefault, hd]
  · intro d hd; simp [dmRegisterDefault, hd]
  · intro dm₁ h₂ hok
    unfold dmRegisterDefault at hok ⊢
    cases hd : dm.defaultHandler with
    | some d => simp [hd] at hok
    | none =>
      simp only [hd] at hok
      cases hok
      simp

theorem c7_register_default_at_most_once_witness :
    dmRegisterDefault ⟨[], none⟩ c2MdHandler
      = .ok ⟨[c2MdHandler], some c2MdHandler⟩
  ∧ dmRegisterDefault ⟨[c2MdHandler], some c2MdHandler⟩ c2TxtHandler
      = .error "Default handler already registered" := by
  constructor
  · exact (c7_register_default_at_most_once ⟨[], none⟩ c2MdHandler).1 rfl
  · exact (c7_register_default_at_most_once
      ⟨[c2MdHandler], some c2MdHandler⟩ c2TxtHandler).2.1 c2MdHandler rfl

/-! ## C4: `close` on an unresolvable widget

The success path of `close` behaves as specified (see
`fhClose_resolved_spec` below), but the unresolvable branch is `return;`
in the source — the call evaluates to `undefined`, although the declared
return type and the doc comment promise a boolean and the spec says
`false`. -/

/-- Supporting fact: when the target widget resolves, `close` returns
`true`, removes exactly one widget, records the disposal, and clears the
active pointer iff it referenced the closed widget. -/
theorem fhClose_resolved_spec (st : HandlerState) (arg : Option Nat)
    (w : Widget) (h : resolveWidget st arg = some w) :
    (fhClose st arg).1 = some true
  ∧ (fhClose st arg).2.widgets.length + 1 = st.widgets.length
  ∧ (fhClose st arg).2.events = st.events ++ [.disposed w.wid]
  ∧ (fhClose st arg).2.activeWidget
      = (if st.activeWidget = some w.wid then none else st.activeWidget) := by
  have hmem : w ∈ st.widgets := by
    unfold resolveWidget at h
    split at h
    · exact List.mem_of_find?_eq_some h
    · split at h
      · exact List.mem_of_find?_eq_some h
      · cases h
  have hidx : st.widgets.findIdx (fun x => x.wid == w.wid) < st.widgets.length :=
    List.findIdx_lt_length_of_exists ⟨w, hmem, by simp⟩
  have hlen := List.length_eraseIdx_of_lt hidx
  refine ⟨by simp [fhClose, h], ?_, by simp [fhClose, h], by simp [fhClose, h]⟩
  simp only [fhClose, h]
  omega

/-- Concrete input exhibiting the `return;` slip in `close`. -/
def c4Widget : Widget :=
  { wid := 5, titleText := "b.txt", titleClassName := [], titleClosable := true,
    content := "", isVisible := false, nodeTargets := [],
    model := ⟨"b.txt", "b", "y"⟩ }

def c4State : HandlerState :=
  { widgets := [c4Widget], activeWidget := some 5, nextId := 6,
    pending := [], events := [] }

/-- **C4 (evaluation at the failing input)**: the first `close` succeeds
(returns `true`, empties the one-widget registry, clears the active
pointer); the second `close` of the same, already-closed widget returns
`undefined` (`none`) — not `false` — without throwing and without changing
any state. -/
theorem c4_close_second_returns_undefined :
    (fhClose c4State (some 5)).1 = some true
  ∧ (fhClose c4State (some 5)).2.widgets = []
  ∧ (fhClose c4State (some 5)).2.activeWidget = none
  ∧ (fhClose (fhClose c4State (some 5)).2 (some 5)).1 = none
  ∧ (fhClose (fhClose c4State (some 5)).2 (some 5)).1 ≠ some false
  ∧ (fhClose (fhClose c4State (some 5)).2 (some 5)).2
      = (fhClose c4State (some 5)).2 := by
  decide

/-! ## C5: `closeAll` mutates the registry while iterating it

Each `w.close()` in the loop synchronously sends a `'close-request'` that
the handler's message filter routes into `this.close(w)` (the interception
the claim describes, `filterMessage_close_request` below), which splices
the live array the `for...of` iterator is walking — so the iterator skips
every other widget and the registry is *not* empty when `closeAll`
returns. -/

/-- Supporting fact: the message filter converts a `'close-request'` on a
managed widget into a handler-initiated `close`. -/
theorem filterMessage_close_request (st : HandlerState) (i : Nat) :
    filterMessage st i "close-request" = fhClose st (some i) := by
  simp [filterMessage]

def c5WidgetA : Widget :=
  { wid := 0, titleText := "a.txt", titleClassName := [], titleClosable := true,
    content := "", isVisible := false, nodeTargets := [],
    model := ⟨"a.txt", "a", "x"⟩ }

def c5WidgetB : Widget :=
  { wid := 1, titleText := "b.txt", titleClassName := [], titleClosable := true,
    content := "", isVisible := false, nodeTargets := [],
    model := ⟨"b.txt", "b", "y"⟩ }

def c5State : HandlerState :=
  { widgets := [c5WidgetA, c5WidgetB], activeWidget := none, nextId := 2,
    pending := [], events := [] }

/-- **C5 (evaluation at the failing input)**: on a handler with two
registered widgets, `closeAll` closes (disposes) only the first one; the
second widget survives in the registry, which is not empty when `closeAll`
returns (the active pointer is cleared). -/
theorem c5_closeAll_leaves_second_widget :
    (fhCloseAll c5State).widgets = [c5WidgetB]
  ∧ (fhCloseAll c5State).widgets ≠ []
  ∧ (fhCloseAll c5State).events = [.disposed 0]
  ∧ (fhCloseAll c5State).activeWidget = none := by
  decide

/-! ## C6: title-driven rename -/

/-- **C6**: when the title text of the managed widget `i` (bound to model
`w.model`) changes to `t`, the handler requests a rename from the contents
service from the old bound path to (directory of old path) ++ `t` — for a
bound path of the form `dir ++ "/" ++ file` (with a slash-free file part)
the requested new path is `dir ++ "/" ++ t` — and the success continuation
rebinds the widget's model to the model `resp` returned by the service, so
the bound path becomes `resp.path`, the new path. -/
theorem c6_rename_requests_and_rebinds (st : HandlerState) (i : Nat)
    (w : Widget) (t : String) (resp : ContentsModel)
    (hw : findWid st i = some w) :
    (onTitleChanged st i "text" t).events
      = st.events ++ [.renameRequested w.model.path (getNewPath w.model.path t)]
  ∧ (∀ d f, w.model.path.data = d ++ '/' :: f → '/' ∉ f →
       (getNewPath w.model.path t).data = d ++ '/' :: t.data)
  ∧ (findWid (renameDone st i resp) i).map Widget.model = some resp
  ∧ (findWid (renameDone st i resp) i).map (fun w => w.model.path)
      = some resp.path := by
  have hw' : st.widgets.find? (fun w => w.wid == i) = some w := by
    simpa [findWid] using hw
  have hwi : w.wid = i := by simpa using List.find?_some hw'
  have hrebind : findWid (renameDone st i resp) i
      = some { w with model := resp } := by
    simp only [renameDone, findWid,
      find?_updateWidget st.widgets i i (rebindFn resp) (fun _ => rfl)]
    simp [hw', hwi, rebindFn]
  refine ⟨?_, ?_, ?_, ?_⟩
  · simp [onTitleChanged, hw']
  · intro d f hp hf
    exact getNewPath_dir_file hp hf t
  · rw [hrebind]; rfl
  · rw [hrebind]; rfl

def c6Widget : Widget :=
  { wid := 0, titleText := "old.txt", titleClassName := [],
    titleClosable := true, content := "", isVisible := false,
    nodeTargets := [], model := ⟨"dir/old.txt", "old.txt", "x"⟩ }

def c6State : HandlerState :=
  { widgets := [c6Widget], activeWidget := none, nextId := 1,
    pending := [], events := [] }

theorem c6_rename_requests_and_rebinds_witness :
    (onTitleChanged c6State 0 "text" "new").events
      = [HEvent.renameRequested "dir/old.txt" "dir/new"]
  ∧ (findWid (renameDone c6State 0 ⟨"dir/new", "new", "x"⟩) 0).map
      (fun w => w.model.path) = some "dir/new" := by
  have h := c6_rename_requests_and_rebinds c6State 0 c6Widget "new"
    ⟨"dir/new", "new", "x"⟩ (by decide)
  refine ⟨?_, h.2.2.2⟩
  rw [h.1]
  decide

/-! ## C8: focus tracking and the `activated` signal -/

/-- **C8**: on a focus event, if some managed widget is visible and
contains the target, the (first) such widget becomes the active widget,
and `activated` is emitted exactly on the transition out of "no active
widget": the emission happens iff the previous active widget was `null`,
and never when an active widget already exists (so focus moves between
widgets of the same handler do not re-emit it).  If no widget contains the
target the state is unchanged. -/
theorem c8_focus_sets_active_and_activates_once (st : HandlerState) (t : Nat) :
    (∀ w,
      st.widgets.find? (fun w => w.isVisible && w.nodeTargets.contains t)
          = some w →
        (onFocus st t).activeWidget = some w.wid
      ∧ ((onFocus st t).events = st.events ++ [.activated]
          ↔ st.activeWidget = none)
      ∧ (st.activeWidget ≠ none → (onFocus st t).events = st.events))
  ∧ (st.widgets.find? (fun w => w.isVisible && w.nodeTargets.contains t)
        = none →
      onFocus st t = st) := by
  constructor
  · intro w hw
    simp only [onFocus, hw]
    cases hprev : st.activeWidget with
    | none =>
      refine ⟨by simp, by simp, ?_⟩
      intro hne; exact absurd rfl hne
    | some a =>
      refine ⟨by simp, by simp, by simp⟩
  · intro hw
    simp only [onFocus, hw]

def c8Widget : Widget :=
  { wid := 3, titleText := "a.txt", titleClassName := [],
    titleClosable := true, content := "", isVisible := true,
    nodeTargets := [7], model := ⟨"a.txt", "a", "x"⟩ }

def c8State : HandlerState :=
  { widgets := [c8Widget], activeWidget := none, nextId := 4,
    pending := [], events := [] }

theorem c8_focus_sets_active_and_activates_once_witness :
    (onFocus c8State 7).activeWidget = some 3
  ∧ (onFocus c8State 7).events = [HEvent.activated]
  ∧ (onFocus (onFocus c8State 7) 7).events = (onFocus c8State 7).events := by
  have h1 := (c8_focus_sets_active_and_activates_once c8State 7).1 c8Widget
    (by decide)
  have h2 := (c8_focus_sets_active_and_activates_once (onFocus c8State 7) 7).1
    c8Widget (by decide)
  refine ⟨h1.1, ?_, h2.2.2 (by decide)⟩
  have := h1.2.1.mpr (by decide)
  simpa [c8State] using this

/-! ## C9: `open` returns synchronously, populates asynchronously, and
emits `finished` exactly once per call -/

theorem resolvePopulate_events (st : HandlerState) (p : PendingPopulate)
    (fetched : ContentsModel) (hmem : st.pending.contains p = true) :
    (resolvePopulate st p fetched).events = st.events ++ [.finished p.model] := by
  have hmem' : p ∈ st.pending := by simpa using hmem
  simp [resolvePopulate, hmem']

theorem resolvePopulate_pending (st : HandlerState) (p : PendingPopulate)
    (fetched : ContentsModel) (hmem : st.pending.contains p = true) :
    (resolvePopulate st p fetched).pending = st.pending.erase p := by
  have hmem' : p ∈ st.pending := by simpa using hmem
  simp [resolvePopulate, hmem']

theorem resolvePopulate_content (st : HandlerState) (p : PendingPopulate)
    (fetched : ContentsModel) (hmem : st.pending.contains p = true)
    (hw : (findWid st p.wid).isSome) :
    (findWid (resolvePopulate st p fetched) p.wid).map Widget.content
      = some fetched.content := by
  obtain ⟨u, hu⟩ := Option.isSome_iff_exists.mp hw
  have hu' : st.widgets.find? (fun w => w.wid == p.wid) = some u := by
    simpa [findWid] using hu
  have hui : u.wid = p.wid := by simpa using List.find?_some hu'
  have hmem' : p ∈ st.pending := by simpa using hmem
  have hstep : (resolvePopulate st p fetched).widgets
      = updateWidget st.widgets p.wid (populateFn fetched) := by
    simp [resolvePopulate, hmem']
  simp only [findWid, hstep,
    find?_updateWidget st.widgets p.wid p.wid (populateFn fetched)
      (fun _ => rfl)]
  simp [hu', hui, populateFn]

/-- **C9**: every `open(model)` call returns its widget synchronously with
the population still outstanding: the only synchronous effects are the
contents request for `model.path` and the registration of exactly one
pending population task.  Resolving that task with the fetched model sets
the widget's visible content to the fetched content, emits `finished`
(carrying the model `open` received) exactly once, and consumes the task. -/
theorem c9_open_async_population_finishes_once (st : HandlerState)
    (m fetched : ContentsModel) :
    (fhOpen st m).2.events = st.events ++ [.fetchRequested m.path]
  ∧ (fhOpen st m).2.pending = st.pending ++ [⟨(fhOpen st m).1.wid, m⟩]
  ∧ (resolvePopulate (fhOpen st m).2 ⟨(fhOpen st m).1.wid, m⟩ fetched).events
      = (fhOpen st m).2.events ++ [.finished m]
  ∧ (findWid (resolvePopulate (fhOpen st m).2 ⟨(fhOpen st m).1.wid, m⟩ fetched)
        (fhOpen st m).1.wid).map Widget.content = some fetched.content
  ∧ (resolvePopulate (fhOpen st m).2 ⟨(fhOpen st m).1.wid, m⟩ fetched).pending
      = (fhOpen st m).2.pending.erase ⟨(fhOpen st m).1.wid, m⟩ := by
  have hmem : (fhOpen st m).2.pending.contains ⟨(fhOpen st m).1.wid, m⟩ = true := by
    cases hfind : findWidgetByModel st.widgets m with
    | some w => simp [fhOpen, hfind]
    | none => simp [fhOpen, hfind]
  have hw : (findWid (fhOpen st m).2 (fhOpen st m).1.wid).isSome := by
    rw [Option.isSome_iff_exists]
    cases hfind : findWidgetByModel st.widgets m with
    | some w =>
      have hmemw : w ∈ st.widgets := List.mem_of_find?_eq_some hfind
      have : ((fhOpen st m).2.widgets.find?
          (fun x => x.wid == (fhOpen st m).1.wid)).isSome := by
        rw [List.find?_isSome]
        refine ⟨w, ?_, by simp [fhOpen, hfind]⟩
        simp [fhOpen, hfind, hmemw]
      simpa [findWid, Option.isSome_iff_exists] using this
    | none =>
      have : ((fhOpen st m).2.widgets.find?
          (fun x => x.wid == (fhOpen st m).1.wid)).isSome := by
        rw [List.find?_isSome]
        refine ⟨freshWidget st m, ?_, by simp [fhOpen, hfind]⟩
        simp [fhOpen, hfind]
      simpa [findWid, Option.isSome_iff_exists] using this
  refine ⟨?_, ?_,
    resolvePopulate_events _ _ _ hmem,
    resolvePopulate_content _ _ _ hmem hw,
    resolvePopulate_pending _ _ _ hmem⟩
  · cases hfind : findWidgetByModel st.widgets m with
    | some w => simp [fhOpen, hfind]
    | none => simp [fhOpen, hfind]
  · cases hfind : findWidgetByModel st.widgets m with
    | some w => simp [fhOpen, hfind]
    | none => simp [fhOpen, hfind]

/-! ## C3: the dirty flag -/

/-- With at most one dirty token present (true in every reachable state:
the edit listener appends the token only when absent), removing the first
occurrence removes the marker. -/
theorem contains_erase_of_count_le_one {cn : List String}
    (h : cn.count DIRTY_CLASS ≤ 1) :
    (cn.erase DIRTY_CLASS).contains DIRTY_CLASS = false := by
  have hc := List.count_erase_self DIRTY_CLASS cn
  have hz : (cn.erase DIRTY_CLASS).count DIRTY_CLASS = 0 := by omega
  have hnm : DIRTY_CLASS ∉ cn.erase DIRTY_CLASS := List.count_eq_zero.mp hz
  simpa using hnm

theorem dirtyOf_congr {st st' : HandlerState}
    (h : st'.widgets = st.widgets) (i : Nat) : dirtyOf st' i = dirtyOf st i := by
  simp [dirtyOf, findWid, h]

theorem fhSave_widgets (st : HandlerState) (arg : Option Nat) :
    (fhSave st arg).widgets = st.widgets := by
  unfold fhSave; split <;> rfl

theorem fhRevert_widgets (st : HandlerState) (arg : Option Nat) :
    (fhRevert st arg).widgets = st.widgets := by
  unfold fhRevert; split <;> rfl

theorem onTitleChanged_widgets (st : HandlerState) (i : Nat) (n v : String) :
    (onTitleChanged st i n v).widgets = st.widgets := by
  unfold onTitleChanged
  split
  · rfl
  · split <;> rfl

theorem onFocus_widgets (st : HandlerState) (t : Nat) :
    (onFocus st t).widgets = st.widgets := by
  cases hfind : st.widgets.find?
      (fun w => w.isVisible && w.nodeTargets.contains t) with
  | none => simp only [onFocus, hfind]
  | some w =>
    simp only [onFocus, hfind]
    by_cases hp : st.activeWidget.isNone <;> simp [hp]

/-- Registering a new widget does not move an existing widget's dirty
flag. -/
theorem dirtyOf_fhOpen (st : HandlerState) (m : ContentsModel) (i : Nat)
    (b : Bool) (h : dirtyOf st i = some b) :
    dirtyOf (fhOpen st m).2 i = some b := by
  cases hfind : findWidgetByModel st.widgets m with
  | some w =>
    have hcongr : dirtyOf (fhOpen st m).2 i = dirtyOf st i :=
      dirtyOf_congr (by simp [fhOpen, hfind]) i
    rw [hcongr]
    exact h
  | none =>
    simp only [dirtyOf, findWid] at h ⊢
    obtain ⟨u, hu, hub⟩ := Option.map_eq_some'.mp h
    have : (fhOpen st m).2.widgets = st.widgets ++ [freshWidget st m] := by
      simp [fhOpen, hfind]
    rw [this, List.find?_append, hu]
    simp [hub]

theorem editFn_wid (w : Widget) : (editFn w).wid = w.wid := by
  unfold editFn
  by_cases h : DIRTY_CLASS ∈ w.titleClassName <;> simp [h]

theorem isDirty_editFn (w : Widget) : isDirty (editFn w) = true := by
  unfold editFn isDirty
  by_cases h : DIRTY_CLASS ∈ w.titleClassName <;> simp [h]

/-- An edit notification always leaves the edited widget dirty. -/
theorem dirtyOf_editNotify_self {st : HandlerState} {i : Nat} {w : Widget}
    (hw : findWid st i = some w) :
    dirtyOf (editNotify st i) i = some true := by
  have hself := dirtyOf_update_self editFn editFn_wid hw
  rw [show editNotify st i
      = { st with widgets := updateWidget st.widgets i editFn } from rfl]
  rw [hself, isDirty_editFn]

/-- A successful save always leaves the saved widget clean (given the
at-most-one-token invariant). -/
theorem dirtyOf_saveDone_self {st : HandlerState} {i : Nat} {w : Widget}
    (hw : findWid st i = some w)
    (hcnt : w.titleClassName.count DIRTY_CLASS ≤ 1) :
    dirtyOf (saveDone st i) i = some false := by
  have hself := dirtyOf_update_self saveFn (fun _ => rfl) hw
  rw [show saveDone st i
      = { st with widgets := updateWidget st.widgets i saveFn } from rfl]
  rw [hself]
  simp only [isDirty, saveFn]
  rw [contains_erase_of_count_le_one hcnt]

/-- A successful revert always leaves the reverted widget clean. -/
theorem dirtyOf_revertDone_self {st : HandlerState} {i : Nat} {w : Widget}
    (fetched : ContentsModel) (hw : findWid st i = some w)
    (hcnt : w.titleClassName.count DIRTY_CLASS ≤ 1) :
    dirtyOf (revertDone st i fetched) i = some false := by
  have hself := dirtyOf_update_self (revertFn fetched) (fun _ => rfl) hw
  rw [show revertDone st i fetched
      = { st with widgets := updateWidget st.widgets i (revertFn fetched) }
      from rfl]
  rw [hself]
  simp only [isDirty, revertFn]
  rw [contains_erase_of_count_le_one hcnt]

/-- Resolving a population only rewrites editor content; it cannot move a
dirty flag. -/
theorem dirtyOf_resolvePopulate (st : HandlerState) (p : PendingPopulate)
    (fetched : ContentsModel) (i : Nat) :
    dirtyOf (resolvePopulate st p fetched) i = dirtyOf st i := by
  by_cases hmem : p ∈ st.pending
  · have hwidg : (resolvePopulate st p fetched).widgets
        = updateWidget st.widgets p.wid (populateFn fetched) := by
      simp [resolvePopulate, hmem]
    calc dirtyOf (resolvePopulate st p fetched) i
        = dirtyOf { st with
            widgets := updateWidget st.widgets p.wid (populateFn fetched) } i := by
          simp [dirtyOf, findWid, hwidg]
      _ = dirtyOf st i :=
          dirtyOf_update_of_isDirty_eq st p.wid (populateFn fetched)
            (fun _ => rfl) (fun _ => rfl) i
  · simp [resolvePopulate, hmem]

/-- A rebound model cannot move a dirty flag. -/
theorem dirtyOf_renameDone (st : HandlerState) (j : Nat) (c : ContentsModel)
    (i : Nat) : dirtyOf (renameDone st j c) i = dirtyOf st i :=
  dirtyOf_update_of_isDirty_eq st j (rebindFn c) (fun _ => rfl) (fun _ => rfl) i

/-- **C3**: for every managed widget, the dirty flag (presence of the dirty
CSS marker on the widget title) transitions only `false → true` on an edit
notification from that widget and `true → false` on that widget's
successful save or successful revert; no other operation (open,
population, close, closeAll, focus events, title change / rename, failed
save or revert, deactivation) changes it; an edit always leaves the widget
dirty and a successful save/revert always leaves it clean; and a widget is
clean at creation.  The hypotheses are well-formedness facts of every
reachable state: widget ids are distinct, and the dirty token occurs at
most once in a title's class list. -/
theorem c3_dirty_flag_transitions (st : HandlerState) (l : HLabel) (i : Nat)
    (hnd : (st.widgets.map Widget.wid).Nodup)
    (hcnt : ∀ w ∈ st.widgets, w.titleClassName.count DIRTY_CLASS ≤ 1) :
    (∀ d d', dirtyOf st i = some d → dirtyOf (step st l) i = some d' →
      d ≠ d' →
      (d = false ∧ d' = true ∧ l = .edit i)
      ∨ (d = true ∧ d' = false ∧ (l = .saveOk i ∨ ∃ f, l = .revertOk i f)))
  ∧ (∀ w, findWid st i = some w → dirtyOf (step st (.edit i)) i = some true)
  ∧ (∀ w, findWid st i = some w →
       dirtyOf (step st (.saveOk i)) i = some false)
  ∧ (∀ w f, findWid st i = some w →
       dirtyOf (step st (.revertOk i f)) i = some false)
  ∧ (∀ m, findWidgetByModel st.widgets m = none →
       isDirty (fhOpen st m).1 = false) := by
  have hcnt' : ∀ w, findWid st i = some w →
      w.titleClassName.count DIRTY_CLASS ≤ 1 := by
    intro w hw
    exact hcnt w (List.mem_of_find?_eq_some (by simpa [findWid] using hw))
  refine ⟨?_, ?_, ?_, ?_, ?_⟩
  · intro d d' hd hd' hne
    have unchanged2 : dirtyOf (step st l) i = some d → False := by
      intro heq; rw [heq] at hd'; exact hne (Option.some.inj hd')
    cases l with
    | lopen m => exact absurd (dirtyOf_fhOpen st m i d hd) unchanged2
    | resolvePop p fetched =>
      exact absurd ((dirtyOf_resolvePopulate st p fetched i).trans hd) unchanged2
    | edit j =>
      by_cases hij : j = i
      · subst hij
        have hd2 : (findWid st j).map isDirty = some d := hd
        obtain ⟨w, hw, hwb⟩ := Option.map_eq_some'.mp hd2
        have htrue : dirtyOf (step st (HLabel.edit j)) j = some true :=
          dirtyOf_editNotify_self hw
        rw [htrue] at hd'
        have hd'true : d' = true := (Option.some.inj hd').symm
        have hdfalse : d = false := by
          cases d with
          | false => rfl
          | true => exact absurd hd'true.symm hne
        exact Or.inl ⟨hdfalse, hd'true, rfl⟩
      · refine absurd ?_ unchanged2
        have := dirtyOf_update_other st j editFn editFn_wid i
          (fun h => hij h.symm)
        exact this.trans hd
    | lsave arg =>
      exact absurd ((dirtyOf_congr (fhSave_widgets st arg) i).trans hd) unchanged2
    | saveOk j =>
      by_cases hij : j = i
      · subst hij
        have hd2 : (findWid st j).map isDirty = some d := hd
        obtain ⟨w, hw, hwb⟩ := Option.map_eq_some'.mp hd2
        have hfalse : dirtyOf (step st (HLabel.saveOk j)) j = some false :=
          dirtyOf_saveDone_self hw (hcnt' w hw)
        rw [hfalse] at hd'
        have hd'false : d' = false := (Option.some.inj hd').symm
        have hdtrue : d = true := by
          cases d with
          | true => rfl
          | false => exact absurd hd'false.symm hne
        exact Or.inr ⟨hdtrue, hd'false, Or.inl rfl⟩
      · refine absurd ?_ unchanged2
        have := dirtyOf_update_other st j saveFn (fun _ => rfl) i
          (fun h => hij h.symm)
        exact this.trans hd
    | saveFail j => exact absurd hd unchanged2
    | lrevert arg =>
      exact absurd ((dirtyOf_congr (fhRevert_widgets st arg) i).trans hd)
        unchanged2
    | revertOk j fetched =>
      by_cases hij : j = i
      · subst hij
        have hd2 : (findWid st j).map isDirty = some d := hd
        obtain ⟨w, hw, hwb⟩ := Option.map_eq_some'.mp hd2
        have hfalse : dirtyOf (step st (HLabel.revertOk j fetched)) j
            = some false :=
          dirtyOf_revertDone_self fetched hw (hcnt' w hw)
        rw [hfalse] at hd'
        have hd'false : d' = false := (Option.some.inj hd').symm
        have hdtrue : d = true := by
          cases d with
          | true => rfl
          | false => exact absurd hd'false.symm hne
        exact Or.inr ⟨hdtrue, hd'false, Or.inr ⟨fetched, rfl⟩⟩
      · refine absurd ?_ unchanged2
        have := dirtyOf_update_other st j (revertFn fetched) (fun _ => rfl) i
          (fun h => hij h.symm)
        exact this.trans hd
    | revertFail j => exact absurd hd unchanged2
    | lclose arg =>
      exact absurd (dirtyOf_eq_of_subset hnd
        (fhClose_widgets_sublist st arg).subset hd hd') hne
    | lcloseAll =>
      exact absurd (dirtyOf_eq_of_subset hnd
        (fhCloseAll_widgets_sublist st).subset hd hd') hne
    | focusEvent t =>
      exact absurd ((dirtyOf_congr (onFocus_widgets st t) i).trans hd) unchanged2
    | titleChange j n v =>
      exact absurd ((dirtyOf_congr (onTitleChanged_widgets st j n v) i).trans hd)
        unchanged2
    | renameOk j c =>
      exact absurd ((dirtyOf_renameDone st j c i).trans hd) unchanged2
    | deactivate => exact absurd hd unchanged2
  · intro w hw
    exact dirtyOf_editNotify_self hw
  · intro w hw
    exact dirtyOf_saveDone_self hw (hcnt' w hw)
  · intro w f hw
    exact dirtyOf_revertDone_self f hw (hcnt' w hw)
  · intro m hm
    simp [fhOpen, hm, freshWidget, isDirty]

def c3Widget : Widget :=
  { wid := 0, titleText := "a.txt", titleClassName := ["jp-mod-dirty"],
    titleClosable := true, content := "", isVisible := false,
    nodeTargets := [], model := ⟨"a.txt", "a", "x"⟩ }

def c3State : HandlerState :=
  { widgets := [c3Widget], activeWidget := none, nextId := 1,
    pending := [], events := [] }

theorem c3_dirty_flag_transitions_witness :
    dirtyOf (step c3State (.saveOk 0)) 0 = some false
  ∧ dirtyOf (step c3State (.edit 0)) 0 = some true := by
  have h1 := c3_dirty_flag_transitions c3State (.saveOk 0) 0
    (by decide) (by decide)
  have h2 := c3_dirty_flag_transitions c3State (.edit 0) 0
    (by decide) (by decide)
  exact ⟨h1.2.2.1 c3Widget (by decide), h2.2.1 c3Widget (by decide)⟩

end DocManager
